import Mathlib

/-!
A shallow embedding of the sequelize-migrations engine (src/migration.js)
and proofs about its behaviour.

The engine keeps two bookkeeping relations, Migrations and
MigrationStatements, and runs a named batch of SQL statements at most once.
The source is callback-style JavaScript over an asynchronous database
driver; since every continuation is sequenced (async.forEachSeries runs one
item at a time), the code is embedded as explicit state passing over a
database value `DB`, with an environment `Env` resolving the outcome of
each fallible database operation (which inserts, lookups and saves fail,
and what each SQL execution returns, keyed by the Statement row id).
The operator-visible error channel (console.log via logError) is modelled
as the `log` field of `RunState`, and every SQL text handed to
`executeSql` is recorded in order in the `executed` field.
-/

namespace SequelizeMigrations

/-- A driver-level database error, carrying the numeric code
(`error.number` in the source) and the error text. -/
structure DbError where
  number : Int
  message : String
deriving Repr, DecidableEq

/-- A row of the Migrations relation. `migration_key` is declared
`allowNull: false, unique: true`; `none` models SQL NULL. -/
structure MigrationRow where
  id : Nat
  migration_key : Option String
deriving Repr, DecidableEq

/-- Statement status: `pending` (the column default), `success`, `failure`. -/
inductive StmtStatus where
  | pending
  | success
  | failure
deriving Repr, DecidableEq

/-- A row of the MigrationStatements relation. -/
structure StatementRow where
  id : Nat
  migration_id : Nat
  sql_statement : Option String
  status : StmtStatus
  error_code : Option Int
  error_info : Option DbError
deriving Repr, DecidableEq

/-- The persistent database state: the two bookkeeping relations plus the
fresh surrogate-id counter of each relation. -/
structure DB where
  migrations : List MigrationRow
  statements : List StatementRow
  nextMigrationId : Nat
  nextStatementId : Nat
deriving Repr, DecidableEq

/-- The state threaded through a run: the database, the operator-visible
error log (logError / console.log in the source), and the list of SQL texts
handed to `executeSql`, in execution order. -/
structure RunState where
  db : DB
  log : List String
  executed : List (Option String)
deriving Repr, DecidableEq

/-- The environment resolving the outcome of every fallible database
operation: whether the Migration lookup errors, whether the Migration
insert errors, which MigrationStatement inserts error (by batch index),
what executing a Statement returns (keyed by its row id), which saves
error, and the outcomes of the bootstrap steps. -/
structure Env where
  lookupFails : Bool
  migrationCreateFails : Bool
  stmtCreateFails : Nat → Bool
  execError : Nat → Option DbError
  saveFails : Nat → Bool
  migrationSyncFails : Bool
  statementSyncFails : Bool
  constraintQueryFails : Bool
  constraintRows : Option Nat

/-- isEmpty(str): `!str || 0 === str.length`. `none` models a null or
undefined argument, which is falsy, as is the empty string. -/
def isEmpty : Option String → Bool
  | none => true
  | some s => s.length == 0

/-- normalize(str): an empty or absent string collapses to null. -/
def normalize (str : Option String) : Option String :=
  if isEmpty str then none else str

/-- Migration.find with a where clause on migration_key: the first matching
row, if any. -/
def migrationFind (db : DB) (k : Option String) : Option MigrationRow :=
  db.migrations.find? (fun m => m.migration_key == k)

/-- Migration.create with the given migration_key value; the insert fails on
an environment-chosen driver error, on the allowNull:false constraint, or on
the unique constraint of migration_key. -/
def migrationCreate (env : Env) (db : DB) (k : Option String) :
    Except Unit (MigrationRow × DB) :=
  if env.migrationCreateFails || k == none
      || db.migrations.any (fun m => m.migration_key == k) then
    Except.error ()
  else
    let row : MigrationRow := { id := db.nextMigrationId, migration_key := k }
    Except.ok (row, { db with migrations := db.migrations ++ [row],
                              nextMigrationId := db.nextMigrationId + 1 })

/-- MigrationStatement.create for the idx-th statement of a batch, with the
given (already normalized) sql_statement value; the insert fails on an
environment-chosen driver error or on the allowNull:false constraint of
sql_statement. A fresh row carries the status column default, pending. -/
def statementCreate (env : Env) (idx : Nat) (db : DB) (migId : Nat)
    (v : Option String) : Except Unit (StatementRow × DB) :=
  if env.stmtCreateFails idx || v == none then
    Except.error ()
  else
    let row : StatementRow :=
      { id := db.nextStatementId, migration_id := migId, sql_statement := v,
        status := StmtStatus.pending, error_code := none, error_info := none }
    Except.ok (row, { db with statements := db.statements ++ [row],
                              nextStatementId := db.nextStatementId + 1 })

/-- statement.save(): persist the in-memory row over the stored row with the
same id. -/
def saveStatement (db : DB) (row : StatementRow) : DB :=
  { db with statements :=
      db.statements.map (fun r => if r.id == row.id then row else r) }

/-- runIfNotExists(key, callback): only a success continuation is registered
on the lookup, so on a lookup error nothing at all happens; on a found
migration the callback is not invoked. -/
def runIfNotExists (env : Env) (key : Option String) (st : RunState)
    (callback : RunState → RunState) : RunState :=
  if env.lookupFails then st
  else
    match migrationFind st.db (normalize key) with
    | some _ => st
    | none => callback st

/-- The async.forEachSeries loop inside createPendingStatements: create the
rows one at a time, in input order, pushing each created row; the first
failing create aborts the iteration, after which the series completion
handler hands the rows created so far to the continuation. -/
def createPendingStatementsGo (env : Env) (migId : Nat) :
    Nat → List (Option String) → DB → List StatementRow →
    List StatementRow × DB
  | _, [], db, acc => (acc.reverse, db)
  | i, sql :: rest, db, acc =>
    match statementCreate env i db migId (normalize sql) with
    | Except.ok (row, db1) =>
      createPendingStatementsGo env migId (i + 1) rest db1 (row :: acc)
    | Except.error _ => (acc.reverse, db)

/-- createPendingStatements(migration, sqlStatements, callback): returns the
list of created Statement rows (what the completion handler passes on) and
the database after the inserts. -/
def createPendingStatements (env : Env) (migration : MigrationRow)
    (sqlStatements : List (Option String)) (db : DB) :
    List StatementRow × DB :=
  createPendingStatementsGo env migration.id 0 sqlStatements db []

/-- The logError text emitted when executing a statement fails. -/
def stmtFailureLog (error : DbError) : String :=
  "Migration SQL statement failed with error code " ++ toString error.number
    ++ ": " ++ error.message

/-- runPendingStatements(statements): execute the created rows one at a
time, in order. On success the row is saved with status success and the
series continues; on an execution failure the row is saved with status
failure and the driver error recorded in error_code/error_info, the error
is logged, and the series aborts. A failing save stalls the series
silently (no continuation is registered on save errors). -/
def runPendingStatements (env : Env) :
    List StatementRow → RunState → RunState
  | [], st => st
  | statement :: rest, st =>
    let st1 : RunState :=
      { st with executed := st.executed ++ [statement.sql_statement] }
    match env.execError statement.id with
    | none =>
      let row := { statement with status := StmtStatus.success }
      if env.saveFails statement.id then st1
      else runPendingStatements env rest { st1 with db := saveStatement st1.db row }
    | some error =>
      let row := { statement with status := StmtStatus.failure,
                                  error_code := some error.number,
                                  error_info := some error }
      let st2 := { st1 with log := st1.log ++ [stmtFailureLog error] }
      if env.saveFails statement.id then st2
      else { st2 with db := saveStatement st2.db row }

/-- The sqlStatements argument of runOnce: a single SQL string or an array
of SQL strings. -/
inductive SqlArg where
  | single : Option String → SqlArg
  | array : List (Option String) → SqlArg

/-- arr.slice(): a fresh array holding the same elements. -/
def sliceCopy : List (Option String) → List (Option String)
  | [] => []
  | x :: xs => x :: sliceCopy xs

/-- Line 162 of the source:
`(sqlStatements instanceof Array) ? sqlStatements.slice() : [sqlStatements]`. -/
def coerceStatements : SqlArg → List (Option String)
  | SqlArg.single s => [s]
  | SqlArg.array l => sliceCopy l

/-- The logError text emitted when creating the Migration row fails. -/
def failedCreateLog : String := "Failed to create migration"

/-- Migration.runOnce(key, sqlStatements). -/
def runOnce (env : Env) (key : Option String) (sqlArg : SqlArg)
    (st : RunState) : RunState :=
  let sqlStatements := coerceStatements sqlArg
  runIfNotExists env key st (fun st0 =>
    match migrationCreate env st0.db (normalize key) with
    | Except.error _ => { st0 with log := st0.log ++ [failedCreateLog] }
    | Except.ok (migration, db1) =>
      let created := createPendingStatements env migration sqlStatements db1
      runPendingStatements env created.1 { st0 with db := created.2 })

/-- The observable outcome of Migration.bootstrap(callback): whether the
callback was invoked, the error log, and whether the ALTER TABLE adding the
foreign-key constraint was issued. -/
structure BootstrapResult where
  callbackInvoked : Bool
  log : List String
  constraintAddIssued : Bool
deriving Repr, DecidableEq

/-- Migration.bootstrap(callback): sync the Migrations relation, then the
MigrationStatements relation; on either sync failing, log and stop without
invoking the callback. After both syncs, the constraint query is issued
(its success continuation issues the ALTER when no constraint row exists)
and the callback is invoked immediately, without waiting for the
constraint query's outcome. -/
def bootstrap (env : Env) : BootstrapResult :=
  if env.migrationSyncFails then
    { callbackInvoked := false, log := ["Failed to run Migration.sync"],
      constraintAddIssued := false }
  else if env.statementSyncFails then
    { callbackInvoked := false,
      log := ["Failed to run MigrationStatement.sync"],
      constraintAddIssued := false }
  else
    let issued :=
      if env.constraintQueryFails then false
      else
        match env.constraintRows with
        | none => true
        | some n => n == 0
    { callbackInvoked := true, log := [], constraintAddIssued := issued }

/-- A single Statement row, spelled as a function of its columns. -/
def mkRow (migId : Nat) (status : StmtStatus) (ec : Option Int)
    (ei : Option DbError) (rowId : Nat) (v : Option String) : StatementRow :=
  { id := rowId, migration_id := migId, sql_statement := v,
    status := status, error_code := ec, error_info := ei }

/-- The batch of Statement rows for the already-normalized SQL values
`vals`, with consecutive ids starting at `firstId`, all owned by migration
`migId` and sharing the given status and error columns. -/
def mkRows (migId : Nat) (status : StmtStatus) (ec : Option Int)
    (ei : Option DbError) : Nat → List (Option String) → List StatementRow
  | _, [] => []
  | firstId, v :: rest =>
    mkRow migId status ec ei firstId v
      :: mkRows migId status ec ei (firstId + 1) rest

/-- Every create of a batch starting at index `i` succeeds: the environment
does not fail it and the normalized SQL value is non-null. -/
def createsOk (env : Env) : Nat → List (Option String) → Bool
  | _, [] => true
  | i, sql :: rest =>
    (!(env.stmtCreateFails i) && !(normalize sql == none))
      && createsOk env (i + 1) rest

/-- Every execution and save for the `len` consecutive statement ids
starting at `firstId` succeeds. -/
def execsOk (env : Env) : Nat → Nat → Bool
  | _, 0 => true
  | firstId, len + 1 =>
    (env.execError firstId == none) && (!(env.saveFails firstId))
      && execsOk env (firstId + 1) len

/-- The environment in which every database operation succeeds. -/
def nominalEnv : Env :=
  { lookupFails := false, migrationCreateFails := false,
    stmtCreateFails := fun _ => false, execError := fun _ => none,
    saveFails := fun _ => false, migrationSyncFails := false,
    statementSyncFails := false, constraintQueryFails := false,
    constraintRows := some 1 }

/-- The empty database. -/
def emptyDB : DB :=
  { migrations := [], statements := [], nextMigrationId := 0,
    nextStatementId := 0 }

/-- A fresh run state over the empty database. -/
def freshState : RunState := { db := emptyDB, log := [], executed := [] }

/-- A Migration row, spelled as a function of its columns. -/
def migRow (rowId : Nat) (k : Option String) : MigrationRow :=
  { id := rowId, migration_key := k }

/-- The database after a successful Migration insert of key `k`. -/
def dbWithMigration (db : DB) (k : Option String) : DB :=
  { db with migrations := db.migrations ++ [migRow db.nextMigrationId k],
            nextMigrationId := db.nextMigrationId + 1 }

-- Normalization is idempotent: normalizing a normalized key is a no-op.
lemma normalize_idem (k : Option String) : normalize (normalize k) = normalize k := by
  cases k with
  | none => rfl
  | some s =>
    simp only [normalize, isEmpty]
    by_cases h : s.length = 0
    · simp [h]
    · simp [h]

-- arr.slice() produces a list with the very same elements.
lemma sliceCopy_id : ∀ l : List (Option String), sliceCopy l = l := by
  intro l
  induction l with
  | nil => rfl
  | cons x xs ih => simp [sliceCopy, ih]


-- A successful create, spelled out.
lemma statementCreate_ok (env : Env) (i : Nat) (db : DB) (migId : Nat)
    (v : Option String) (h1 : env.stmtCreateFails i = false)
    (h2 : (v == none) = false) :
    statementCreate env i db migId v =
      Except.ok
        ({ id := db.nextStatementId, migration_id := migId, sql_statement := v,
           status := StmtStatus.pending, error_code := none, error_info := none },
         { db with
           statements := db.statements
             ++ [{ id := db.nextStatementId, migration_id := migId,
                   sql_statement := v, status := StmtStatus.pending,
                   error_code := none, error_info := none }],
           nextStatementId := db.nextStatementId + 1 }) := by
  simp [statementCreate, h1, h2]

-- The creation loop across a successfully created prefix S: each row is
-- inserted in input order with consecutive ids, and the loop continues on
-- the rest of the batch with the index, accumulator and database advanced.
lemma go_append_ok (env : Env) (migId : Nat) (T : List (Option String)) :
    ∀ (S : List (Option String)) (i : Nat) (db : DB) (acc : List StatementRow),
    createsOk env i S = true →
    createPendingStatementsGo env migId i (S ++ T) db acc =
      createPendingStatementsGo env migId (i + S.length) T
        { db with
          statements := db.statements
            ++ mkRows migId StmtStatus.pending none none db.nextStatementId
                (S.map normalize),
          nextStatementId := db.nextStatementId + S.length }
        ((mkRows migId StmtStatus.pending none none db.nextStatementId
            (S.map normalize)).reverse ++ acc) := by
  intro S
  induction S with
  | nil =>
    intro i db acc _
    simp [mkRows]
  | cons sql rest ih =>
    intro i db acc h
    simp only [createsOk, Bool.and_eq_true, Bool.not_eq_true'] at h
    obtain ⟨⟨h1, h2⟩, h3⟩ := h
    simp only [List.cons_append, createPendingStatementsGo,
      statementCreate_ok env i db migId (normalize sql) h1 h2, List.append_eq]
    rw [ih (i + 1) _ _ h3]
    have e1 : i + 1 + rest.length = i + (rest.length + 1) := by omega
    have e2 : db.nextStatementId + 1 + rest.length
        = db.nextStatementId + (rest.length + 1) := by omega
    simp [mkRows, mkRow, List.append_assoc, e1, e2]

-- createPendingStatements when every create succeeds: the full batch is
-- returned and appended to the relation, in input order.
lemma createPending_all_ok (env : Env) (migration : MigrationRow)
    (S : List (Option String)) (db : DB) (h : createsOk env 0 S = true) :
    createPendingStatements env migration S db =
      (mkRows migration.id StmtStatus.pending none none db.nextStatementId
        (S.map normalize),
       { db with
         statements := db.statements
           ++ mkRows migration.id StmtStatus.pending none none db.nextStatementId
               (S.map normalize),
         nextStatementId := db.nextStatementId + S.length }) := by
  have h0 := go_append_ok env migration.id [] S 0 db [] h
  rw [List.append_nil] at h0
  rw [createPendingStatements, h0]
  simp [createPendingStatementsGo]

-- createPendingStatements when the create at index S.length fails: only the
-- rows for the prefix S are inserted, the remaining creations are aborted,
-- and exactly those prefix rows are handed to the continuation.
lemma createPending_abort (env : Env) (migration : MigrationRow)
    (S : List (Option String)) (s : Option String) (S2 : List (Option String))
    (db : DB) (h : createsOk env 0 S = true)
    (hfail : env.stmtCreateFails S.length = true ∨ normalize s = none) :
    createPendingStatements env migration (S ++ s :: S2) db =
      (mkRows migration.id StmtStatus.pending none none db.nextStatementId
        (S.map normalize),
       { db with
         statements := db.statements
           ++ mkRows migration.id StmtStatus.pending none none db.nextStatementId
               (S.map normalize),
         nextStatementId := db.nextStatementId + S.length }) := by
  have h0 := go_append_ok env migration.id (s :: S2) S 0 db [] h
  rw [createPendingStatements, h0]
  have hc : ∀ db2 : DB, statementCreate env (0 + S.length) db2 migration.id
      (normalize s) = Except.error () := by
    intro db2
    rcases hfail with hf | hf
    · simp [statementCreate, hf]
    · simp [statementCreate, hf]
  simp only [createPendingStatementsGo, hc]
  simp

-- A successful statement insert does not touch the Migrations relation.
lemma statementCreate_migrations (env : Env) (i : Nat) (db : DB) (migId : Nat)
    (v : Option String) (row : StatementRow) (db1 : DB)
    (h : statementCreate env i db migId v = Except.ok (row, db1)) :
    db1.migrations = db.migrations := by
  by_cases hcond : (env.stmtCreateFails i || (v == none)) = true
  · simp [statementCreate, hcond] at h
  · rw [statementCreate, if_neg hcond] at h
    obtain ⟨h1, h2⟩ := Prod.mk.injEq .. ▸ Except.ok.inj h
    rw [← h2]

-- The creation loop does not touch the Migrations relation.
lemma createPending_migrations (env : Env) (migId : Nat) :
    ∀ (S : List (Option String)) (i : Nat) (db : DB) (acc : List StatementRow),
    ((createPendingStatementsGo env migId i S db acc).2).migrations
      = db.migrations := by
  intro S
  induction S with
  | nil => intro i db acc; rfl
  | cons sql rest ih =>
    intro i db acc
    cases hc : statementCreate env i db migId (normalize sql) with
    | error e => simp [createPendingStatementsGo, hc]
    | ok p =>
      obtain ⟨row, db1⟩ := p
      have hm := statementCreate_migrations env i db migId (normalize sql) row db1 hc
      simp [createPendingStatementsGo, hc, ih, hm]

-- Saving a statement row does not touch the Migrations relation, so neither
-- does the execution loop.
lemma runPending_migrations (env : Env) :
    ∀ (rows : List StatementRow) (st : RunState),
    ((runPendingStatements env rows st).db).migrations = st.db.migrations := by
  intro rows
  induction rows with
  | nil => intro st; rfl
  | cons statement rest ih =>
    intro st
    cases h : env.execError statement.id with
    | none =>
      cases hs : env.saveFails statement.id with
      | true => simp [runPendingStatements, h, hs]
      | false => simp [runPendingStatements, h, hs, ih, saveStatement]
    | some e =>
      cases hs : env.saveFails statement.id with
      | true => simp [runPendingStatements, h, hs]
      | false => simp [runPendingStatements, h, hs, saveStatement]

-- Replacing by id in a list where exactly the middle row carries that id.
lemma map_replace_id (r0 r : StatementRow) (P Q : List StatementRow)
    (hid : r0.id = r.id)
    (hP : ∀ p ∈ P, p.id ≠ r.id) (hQ : ∀ q ∈ Q, q.id ≠ r.id) :
    (P ++ r0 :: Q).map (fun x => if x.id == r.id then r else x) = P ++ r :: Q := by
  rw [List.map_append, List.map_cons]
  have hhead : (if r0.id == r.id then r else r0) = r := by
    rw [if_pos]
    simp [hid]
  have hPmap : P.map (fun x => if x.id == r.id then r else x) = P := by
    conv_rhs => rw [← List.map_id P]
    apply List.map_congr_left
    intro p hp
    have hb : ¬ ((p.id == r.id) = true) := fun hc => hP p hp (by simpa using hc)
    rw [if_neg hb]
    rfl
  have hQmap : Q.map (fun x => if x.id == r.id then r else x) = Q := by
    conv_rhs => rw [← List.map_id Q]
    apply List.map_congr_left
    intro q hq
    have hb : ¬ ((q.id == r.id) = true) := fun hc => hQ q hq (by simpa using hc)
    rw [if_neg hb]
    rfl
  rw [hhead, hPmap, hQmap]

-- Every row of a batch has its id inside the batch's id range.
lemma mkRows_mem_id (migId : Nat) (status : StmtStatus) (ec : Option Int)
    (ei : Option DbError) :
    ∀ (vals : List (Option String)) (firstId : Nat) (r : StatementRow),
    r ∈ mkRows migId status ec ei firstId vals →
    firstId ≤ r.id ∧ r.id < firstId + vals.length := by
  intro vals
  induction vals with
  | nil =>
    intro firstId r h
    simp [mkRows] at h
  | cons v rest ih =>
    intro firstId r h
    simp only [mkRows, List.mem_cons] at h
    rcases h with h | h
    · subst h
      simp only [List.length_cons, mkRow]
      omega
    · have := ih (firstId + 1) r h
      simp only [List.length_cons]
      omega

-- A batch over an appended value list splits into two consecutive batches.
lemma mkRows_append (migId : Nat) (status : StmtStatus) (ec : Option Int)
    (ei : Option DbError) :
    ∀ (v1 v2 : List (Option String)) (firstId : Nat),
    mkRows migId status ec ei firstId (v1 ++ v2)
      = mkRows migId status ec ei firstId v1
        ++ mkRows migId status ec ei (firstId + v1.length) v2 := by
  intro v1
  induction v1 with
  | nil => intro v2 firstId; simp [mkRows]
  | cons v rest ih =>
    intro v2 firstId
    simp only [List.cons_append, mkRows, ih, List.length_cons, List.append_eq]
    have e : firstId + 1 + rest.length = firstId + (rest.length + 1) := by omega
    rw [e]

-- One failing execution step, spelled out: record the driver error on the
-- row, log, save, and stop.
lemma runPending_fail_step (env : Env) (statement : StatementRow)
    (rest : List StatementRow) (st : RunState) (e : DbError)
    (h1 : env.execError statement.id = some e)
    (h2 : env.saveFails statement.id = false) :
    runPendingStatements env (statement :: rest) st =
      { st with
        db := saveStatement st.db
          { statement with status := StmtStatus.failure,
                           error_code := some e.number, error_info := some e },
        executed := st.executed ++ [statement.sql_statement],
        log := st.log ++ [stmtFailureLog e] } := by
  simp [runPendingStatements, h1, h2]

-- One successful execution step on the head row of a pending batch, with
-- the saved row spelled out.
lemma runPending_ok_step_mk (env : Env) (migId firstId : Nat) (v : Option String)
    (rows : List StatementRow) (st : RunState)
    (h1 : env.execError firstId = none) (h2 : env.saveFails firstId = false) :
    runPendingStatements env
        (mkRow migId StmtStatus.pending none none firstId v :: rows) st =
      runPendingStatements env rows
        { st with
          db := saveStatement st.db
            (mkRow migId StmtStatus.success none none firstId v),
          executed := st.executed ++ [v] } := by
  simp [runPendingStatements, mkRow, h1, h2]

-- The execution loop across a batch whose executions and saves all
-- succeed: each row is saved as success in place, in order, and the loop
-- continues on the remaining rows with the executed trail extended.
lemma runPending_append_ok (env : Env) (migId : Nat) :
    ∀ (vals : List (Option String)) (firstId : Nat) (P Q R : List StatementRow)
      (st : RunState),
    st.db.statements
      = P ++ mkRows migId StmtStatus.pending none none firstId vals ++ Q →
    (∀ p ∈ P, p.id < firstId) →
    (∀ q ∈ Q, firstId + vals.length ≤ q.id) →
    execsOk env firstId vals.length = true →
    runPendingStatements env
        (mkRows migId StmtStatus.pending none none firstId vals ++ R) st =
      runPendingStatements env R
        { st with
          db := { st.db with
                  statements := P ++ mkRows migId StmtStatus.success none none
                                  firstId vals ++ Q },
          executed := st.executed ++ vals } := by
  intro vals
  induction vals with
  | nil =>
    intro firstId P Q R st hdb hP hQ hex
    simp only [mkRows, List.append_nil, List.nil_append] at hdb ⊢
    congr 1
    cases st with
    | mk db log executed =>
      cases db with
      | mk ms ss ni nsi =>
        simp only at hdb
        simp [hdb]
  | cons v rest ih =>
    intro firstId P Q R st hdb hP hQ hex
    simp only [execsOk, Bool.and_eq_true, Bool.not_eq_true', beq_iff_eq,
      List.length_cons] at hex
    obtain ⟨⟨hexec1, hsave1⟩, hrest⟩ := hex
    simp only [mkRows] at hdb ⊢
    rw [List.cons_append,
      runPending_ok_step_mk env migId firstId v
        (mkRows migId StmtStatus.pending none none (firstId + 1) rest ++ R) st
        hexec1 hsave1]
    have hP2 : ∀ p ∈ P, p.id ≠ firstId := by
      intro p hp
      have := hP p hp
      omega
    have hQ2 : ∀ q ∈ mkRows migId StmtStatus.pending none none (firstId + 1) rest
        ++ Q, q.id ≠ firstId := by
      intro q hq
      rcases List.mem_append.mp hq with hq | hq
      · have := mkRows_mem_id migId StmtStatus.pending none none rest (firstId + 1) q hq
        omega
      · have := hQ q hq
        simp only [List.length_cons] at this
        omega
    have hid0 : (mkRow migId StmtStatus.pending none none firstId v).id
        = (mkRow migId StmtStatus.success none none firstId v).id := rfl
    have hP2a : ∀ p ∈ P,
        p.id ≠ (mkRow migId StmtStatus.success none none firstId v).id := hP2
    have hQ2a : ∀ q ∈ mkRows migId StmtStatus.pending none none (firstId + 1) rest
        ++ Q, q.id ≠ (mkRow migId StmtStatus.success none none firstId v).id := hQ2
    have hmap := map_replace_id
      (mkRow migId StmtStatus.pending none none firstId v)
      (mkRow migId StmtStatus.success none none firstId v)
      P (mkRows migId StmtStatus.pending none none (firstId + 1) rest ++ Q)
      hid0 hP2a hQ2a
    have hdb1 : st.db.statements
        = P ++ mkRow migId StmtStatus.pending none none firstId v
            :: (mkRows migId StmtStatus.pending none none (firstId + 1) rest
                ++ Q) := by
      rw [hdb]
      simp [List.append_assoc]
    have hsavedb : saveStatement st.db
        (mkRow migId StmtStatus.success none none firstId v)
      = { st.db with
          statements := (P ++ [mkRow migId StmtStatus.success none none firstId v])
                          ++ mkRows migId StmtStatus.pending none none
                              (firstId + 1) rest
                          ++ Q } := by
      rw [saveStatement, hdb1, hmap]
      simp [List.append_assoc]
    rw [hsavedb]
    have hP3 : ∀ p ∈ P ++ [mkRow migId StmtStatus.success none none firstId v],
        p.id < firstId + 1 := by
      intro p hp
      rcases List.mem_append.mp hp with hp | hp
      · have := hP p hp
        omega
      · rcases List.mem_singleton.mp hp with rfl
        simp [mkRow]
    have hQ3 : ∀ q ∈ Q, firstId + 1 + rest.length ≤ q.id := by
      intro q hq
      have := hQ q hq
      simp only [List.length_cons] at this
      omega
    rw [ih (firstId + 1)
        (P ++ [mkRow migId StmtStatus.success none none firstId v]) Q R
        { st with
          db := { st.db with
                  statements := (P ++ [mkRow migId StmtStatus.success none none
                                        firstId v])
                                  ++ mkRows migId StmtStatus.pending none none
                                      (firstId + 1) rest
                                  ++ Q },
          executed := st.executed ++ [v] }
        rfl hP3 hQ3 hrest]
    congr 1
    cases st with
    | mk db log executed =>
      cases db with
      | mk ms ss ni nsi =>
        simp [List.append_assoc]

-- The creation loop leaves the Migrations relation unchanged (wrapper).
lemma createPendingStatements_migrations (env : Env) (migration : MigrationRow)
    (S : List (Option String)) (db : DB) :
    ((createPendingStatements env migration S db).2).migrations
      = db.migrations := by
  rw [createPendingStatements]
  exact createPending_migrations env migration.id S 0 db []

-- runOnce on a fresh key under a healthy lookup and Migration insert:
-- the Migration row is inserted and the created batch is handed to the
-- execution loop.
lemma runOnce_fresh (env : Env) (key : Option String) (sqlArg : SqlArg)
    (st : RunState)
    (h1 : env.lookupFails = false)
    (h2 : migrationFind st.db (normalize key) = none)
    (h3 : env.migrationCreateFails = false)
    (h4 : (normalize key == none) = false) :
    runOnce env key sqlArg st =
      runPendingStatements env
        (createPendingStatements env (migRow st.db.nextMigrationId (normalize key))
          (coerceStatements sqlArg) (dbWithMigration st.db (normalize key))).1
        { st with
          db := (createPendingStatements env
                  (migRow st.db.nextMigrationId (normalize key))
                  (coerceStatements sqlArg)
                  (dbWithMigration st.db (normalize key))).2 } := by
  have hany : st.db.migrations.any (fun m => m.migration_key == normalize key)
      = false := by
    simp only [migrationFind] at h2
    exact List.any_eq_false.mpr (List.find?_eq_none.mp h2)
  have hcreate : migrationCreate env st.db (normalize key)
      = Except.ok (migRow st.db.nextMigrationId (normalize key),
                   dbWithMigration st.db (normalize key)) := by
    simp [migrationCreate, h3, h4, hany, migRow, dbWithMigration]
  simp [runOnce, runIfNotExists, h1, h2, hcreate]

/-- C4: when executing a Statement's SQL fails, the engine sets the row's
status to failure, populates error_code and error_info from the driver
error, emits the operator-visible error log, persists the row, and halts
the batch (the remaining statements are not processed at all); on success
it sets status to success and persists before moving to the next
statement. -/
theorem stmt_execution_failure_handling (env : Env) (statement : StatementRow)
    (rest : List StatementRow) (st : RunState) (e : DbError) :
    (env.execError statement.id = some e → env.saveFails statement.id = false →
      runPendingStatements env (statement :: rest) st =
        { st with
          db := saveStatement st.db
            { statement with status := StmtStatus.failure,
                             error_code := some e.number, error_info := some e },
          executed := st.executed ++ [statement.sql_statement],
          log := st.log ++ [stmtFailureLog e] })
    ∧ (env.execError statement.id = none → env.saveFails statement.id = false →
      runPendingStatements env (statement :: rest) st =
        runPendingStatements env rest
          { st with
            db := saveStatement st.db { statement with status := StmtStatus.success },
            executed := st.executed ++ [statement.sql_statement] }) := by
  constructor <;> intro h1 h2 <;> simp [runPendingStatements, h1, h2]

/-- C4 witness: a concrete failing execution, handled as the theorem
states. -/
theorem stmt_execution_failure_handling_witness :
    runPendingStatements
        { nominalEnv with execError := fun _ => some { number := 1060, message := "dup" } }
        [{ id := 0, migration_id := 0, sql_statement := some "a",
           status := StmtStatus.pending, error_code := none, error_info := none }]
        freshState =
      { freshState with
        db := saveStatement freshState.db
          { id := 0, migration_id := 0, sql_statement := some "a",
            status := StmtStatus.failure, error_code := some (1060 : Int),
            error_info := some { number := 1060, message := "dup" } },
        executed := freshState.executed ++ [some "a"],
        log := freshState.log ++ [stmtFailureLog { number := 1060, message := "dup" }] } :=
  (stmt_execution_failure_handling
    { nominalEnv with execError := fun _ => some { number := 1060, message := "dup" } }
    { id := 0, migration_id := 0, sql_statement := some "a",
      status := StmtStatus.pending, error_code := none, error_info := none }
    [] freshState { number := 1060, message := "dup" }).1 rfl rfl

/-- C5: if creating the Migration row fails, the failure is reported to the
operator-visible error channel and that runOnce call stops: the database is
untouched (no Statement rows created) and no SQL is executed. -/
theorem migration_create_failure_stops_run (env : Env) (key : Option String)
    (sqlArg : SqlArg) (st : RunState)
    (h1 : env.lookupFails = false)
    (h2 : migrationFind st.db (normalize key) = none)
    (h3 : migrationCreate env st.db (normalize key) = Except.error ()) :
    runOnce env key sqlArg st = { st with log := st.log ++ [failedCreateLog] } := by
  simp [runOnce, runIfNotExists, h1, h2, h3]

/-- C5 witness: a concrete failing Migration insert stops the run with only
the error log emitted. -/
theorem migration_create_failure_stops_run_witness :
    runOnce { nominalEnv with migrationCreateFails := true } (some "k")
        (SqlArg.array [some "a"]) freshState
      = { freshState with log := freshState.log ++ [failedCreateLog] } :=
  migration_create_failure_stops_run { nominalEnv with migrationCreateFails := true }
    (some "k") (SqlArg.array [some "a"]) freshState rfl rfl rfl

/-- C9: if the existence-check lookup itself errors, runOnce performs no
action at all — no row is created, nothing runs, nothing is logged, and
nothing reaches the caller: the state is returned unchanged. -/
theorem lookup_failure_silent_noop (env : Env) (key : Option String)
    (sqlArg : SqlArg) (st : RunState) (h : env.lookupFails = true) :
    runOnce env key sqlArg st = st := by
  simp [runOnce, runIfNotExists, h]

/-- C9 witness: a concrete failing lookup leaves the state untouched. -/
theorem lookup_failure_silent_noop_witness :
    runOnce { nominalEnv with lookupFails := true } (some "k")
        (SqlArg.array [some "a"]) freshState = freshState :=
  lookup_failure_silent_noop { nominalEnv with lookupFails := true } (some "k")
    (SqlArg.array [some "a"]) freshState rfl

/-- C7: a single SQL string argument is treated exactly as the one-element
list of that string, and the engine works on a copy of an array argument
(arr.slice()), whose value equals the caller's list — so the caller's input
list is never changed by runOnce. -/
theorem single_string_is_singleton_list :
    (∀ (env : Env) (key : Option String) (s : Option String) (st : RunState),
      runOnce env key (SqlArg.single s) st = runOnce env key (SqlArg.array [s]) st)
    ∧ (∀ l : List (Option String), sliceCopy l = l) := by
  have hslice : ∀ l : List (Option String), sliceCopy l = l := by
    intro l
    induction l with
    | nil => rfl
    | cons x xs ih => simp [sliceCopy, ih]
  exact ⟨fun env key s st => rfl, hslice⟩

/-- C10: each SQL text is passed through normalize before the Statement row
is created, so an empty-string SQL statement becomes an absent value whose
insert fails on the sql_statement not-null constraint: a batch starting
with an empty statement creates no row at all. -/
theorem empty_sql_normalized_creation_fails :
    (normalize (some "") = none)
    ∧ (∀ (env : Env) (i : Nat) (db : DB) (migId : Nat),
        statementCreate env i db migId (normalize (some "")) = Except.error ())
    ∧ (∀ (env : Env) (migration : MigrationRow) (S : List (Option String)) (db : DB),
        createPendingStatements env migration (some "" :: S) db = ([], db)) := by
  refine ⟨rfl, ?_, ?_⟩
  · intro env i db migId
    simp [statementCreate, show normalize (some "") = none from rfl]
  · intro env migration S db
    simp [createPendingStatements, createPendingStatementsGo, statementCreate,
      show normalize (some "") = none from rfl]

/-- C6: an empty or absent key is normalized to an absent value before it is
used: normalize collapses both to none, runOnce behaves identically on a
key and on its normalization, and a key normalizing to none never adds a
Migration row (its insert fails on the not-null constraint), so no row ever
stores the empty string as a key. -/
theorem empty_key_normalized_to_absent :
    (normalize none = none) ∧ (normalize (some "") = none)
    ∧ (∀ (env : Env) (key : Option String) (sqlArg : SqlArg) (st : RunState),
        runOnce env key sqlArg st = runOnce env (normalize key) sqlArg st)
    ∧ (∀ (env : Env) (key : Option String) (sqlArg : SqlArg) (st : RunState),
        normalize key = none →
        ((runOnce env key sqlArg st).db).migrations = st.db.migrations) := by
  refine ⟨rfl, rfl, ?_, ?_⟩
  · intro env key sqlArg st
    simp [runOnce, runIfNotExists, normalize_idem]
  · intro env key sqlArg st hk
    cases hl : env.lookupFails with
    | true => simp [runOnce, runIfNotExists, hl]
    | false =>
      cases hf : migrationFind st.db (normalize key) with
      | some m => simp [runOnce, runIfNotExists, hl, hf]
      | none =>
        have hc : migrationCreate env st.db (normalize key) = Except.error () := by
          rw [hk]
          simp [migrationCreate]
        simp [runOnce, runIfNotExists, hl, hf, hc]

/-- C6 witness: running with the empty-string key adds no Migration row. -/
theorem empty_key_normalized_to_absent_witness :
    ((runOnce nominalEnv (some "") (SqlArg.array [some "x"]) freshState).db).migrations
      = ([] : List MigrationRow) :=
  empty_key_normalized_to_absent.2.2.2 nominalEnv (some "")
    (SqlArg.array [some "x"]) freshState rfl

/-- C8: bootstrap invokes its callback exactly when both bookkeeping
relations were created, regardless of the outcome of the
foreign-key-constraint check/add step (which it does not wait for); when
either relation's creation fails the callback is never invoked and the
failure is reported to the operator-visible error channel. -/
theorem bootstrap_callback_contract (env : Env) :
    ((bootstrap env).callbackInvoked = true ↔
      (env.migrationSyncFails = false ∧ env.statementSyncFails = false))
    ∧ ((env.migrationSyncFails = true ∨ env.statementSyncFails = true) →
        (bootstrap env).callbackInvoked = false ∧ (bootstrap env).log ≠ []) := by
  cases hm : env.migrationSyncFails <;> cases hs : env.statementSyncFails <;>
    simp [bootstrap, hm, hs]

/-- C8 witness: a concrete failing Migration sync never invokes the
callback and reports an error. -/
theorem bootstrap_callback_contract_witness :
    (bootstrap { nominalEnv with migrationSyncFails := true }).callbackInvoked = false
    ∧ (bootstrap { nominalEnv with migrationSyncFails := true }).log ≠ [] :=
  (bootstrap_callback_contract { nominalEnv with migrationSyncFails := true }).2
    (Or.inl rfl)

/-- C1 counterexample: with the second Statement insert failing mid-batch,
the first (already created) Statement row IS executed — the run ends with
it executed and saved as success — refuting that execution is not started
on the already-created rows of the batch. -/
theorem partial_batch_executed_counterexample :
    (runOnce { nominalEnv with stmtCreateFails := fun i => i == 1 } (some "k")
        (SqlArg.array [some "a", some "b"]) freshState).executed = [some "a"]
    ∧ ((runOnce { nominalEnv with stmtCreateFails := fun i => i == 1 } (some "k")
        (SqlArg.array [some "a", some "b"]) freshState).db).statements.map
        StatementRow.status = [StmtStatus.success] := by
  decide

/-- C2 counterexample: with the empty-string key, even under a fully
nominal environment, calling runOnce twice produces NO Migration row with
migration_key = normalize(key) (the insert fails on the not-null
constraint), not exactly one as the claim states for every key. -/
theorem empty_key_idempotence_counterexample :
    ((runOnce nominalEnv (some "") (SqlArg.array [some "x"])
        (runOnce nominalEnv (some "") (SqlArg.array [some "x"]) freshState)).db).migrations.filter
        (fun m => m.migration_key == normalize (some "")) = [] := by
  decide

-- runOnce on a key whose Migration row already exists (and a healthy
-- lookup) returns its state unchanged.
lemma runOnce_found (env : Env) (key : Option String) (sqlArg : SqlArg)
    (st : RunState) (m : MigrationRow) (h1 : env.lookupFails = false)
    (hf : migrationFind st.db (normalize key) = some m) :
    runOnce env key sqlArg st = st := by
  simp [runOnce, runIfNotExists, h1, hf]

/-- C2 (amended): for every key whose normalization is non-null, starting
from a state holding no Migration row for that key, with the lookup and the
Migration insert healthy, runOnce leaves exactly one Migration row with
migration_key = normalize(key); and a second identical call returns the
state completely unchanged — zero row insertions, zero SQL executions, no
log entry, and no signal to the caller. -/
theorem runOnce_idempotent_nonempty_key (env : Env) (key : Option String)
    (sqlArg : SqlArg) (st : RunState)
    (h1 : env.lookupFails = false)
    (h2 : migrationFind st.db (normalize key) = none)
    (h3 : env.migrationCreateFails = false)
    (h4 : normalize key ≠ none) :
    runOnce env key sqlArg (runOnce env key sqlArg st) = runOnce env key sqlArg st
    ∧ ((runOnce env key sqlArg st).db).migrations.filter
        (fun m => m.migration_key == normalize key)
      = [migRow st.db.nextMigrationId (normalize key)] := by
  have h4b : (normalize key == none) = false := by
    cases hk : normalize key with
    | none => exact absurd hk h4
    | some s => rfl
  have hshape := runOnce_fresh env key sqlArg st h1 h2 h3 h4b
  have hmig : ((runOnce env key sqlArg st).db).migrations
      = st.db.migrations ++ [migRow st.db.nextMigrationId (normalize key)] := by
    rw [hshape, runPending_migrations]
    simp [createPendingStatements_migrations, dbWithMigration]
  have hfind1 : migrationFind ((runOnce env key sqlArg st).db) (normalize key)
      = some (migRow st.db.nextMigrationId (normalize key)) := by
    simp only [migrationFind, hmig]
    rw [List.find?_append]
    simp only [migrationFind] at h2
    rw [h2]
    simp [migRow]
  constructor
  · exact runOnce_found env key sqlArg (runOnce env key sqlArg st)
      (migRow st.db.nextMigrationId (normalize key)) h1 hfind1
  · rw [hmig, List.filter_append]
    have hfil1 : st.db.migrations.filter
        (fun m => m.migration_key == normalize key) = [] := by
      simp only [migrationFind] at h2
      exact List.filter_eq_nil_iff.mpr (List.find?_eq_none.mp h2)
    rw [hfil1]
    simp [migRow]

/-- C2 witness: a concrete nonempty key on a fresh database — the second
call changes nothing and exactly one Migration row with the key exists. -/
theorem runOnce_idempotent_nonempty_key_witness :
    runOnce nominalEnv (some "k") (SqlArg.array [some "a"])
        (runOnce nominalEnv (some "k") (SqlArg.array [some "a"]) freshState)
      = runOnce nominalEnv (some "k") (SqlArg.array [some "a"]) freshState
    ∧ ((runOnce nominalEnv (some "k") (SqlArg.array [some "a"])
          freshState).db).migrations.filter
        (fun m => m.migration_key == normalize (some "k"))
      = [migRow 0 (normalize (some "k"))] :=
  runOnce_idempotent_nonempty_key nominalEnv (some "k") (SqlArg.array [some "a"])
    freshState rfl rfl rfl (by decide)

lemma migRow_id (a : Nat) (k : Option String) : (migRow a k).id = a := rfl

lemma dbWithMigration_statements (db : DB) (k : Option String) :
    (dbWithMigration db k).statements = db.statements := rfl

lemma dbWithMigration_nextStatementId (db : DB) (k : Option String) :
    (dbWithMigration db k).nextStatementId = db.nextStatementId := rfl

-- One failing execution step on the head row of a pending batch, with the
-- saved row spelled out.
lemma runPending_fail_step_mk (env : Env) (migId firstId : Nat)
    (v : Option String) (rows : List StatementRow) (st : RunState) (e : DbError)
    (h1 : env.execError firstId = some e) (h2 : env.saveFails firstId = false) :
    runPendingStatements env
        (mkRow migId StmtStatus.pending none none firstId v :: rows) st =
      { st with
        db := saveStatement st.db
          (mkRow migId StmtStatus.failure (some e.number) (some e) firstId v),
        executed := st.executed ++ [v],
        log := st.log ++ [stmtFailureLog e] } := by
  simp [runPendingStatements, mkRow, h1, h2]

-- Executing a full batch whose prefix succeeds and whose next statement
-- fails: the prefix rows end as success, the failing row is persisted as
-- failure with the driver error and the error is logged, and every later
-- row stays pending and is never executed.
lemma runPending_fail_after (env : Env) (migId : Nat)
    (vals1 : List (Option String)) (v : Option String)
    (vals2 : List (Option String)) (firstId : Nat) (P : List StatementRow)
    (st : RunState) (e : DbError)
    (hdb : st.db.statements
      = P ++ mkRows migId StmtStatus.pending none none firstId
          (vals1 ++ v :: vals2))
    (hP : ∀ p ∈ P, p.id < firstId)
    (hex : execsOk env firstId vals1.length = true)
    (h8 : env.execError (firstId + vals1.length) = some e)
    (h9 : env.saveFails (firstId + vals1.length) = false) :
    runPendingStatements env
        (mkRows migId StmtStatus.pending none none firstId (vals1 ++ v :: vals2))
        st =
      { st with
        db := { st.db with
                statements := P
                  ++ mkRows migId StmtStatus.success none none firstId vals1
                  ++ mkRow migId StmtStatus.failure (some e.number) (some e)
                      (firstId + vals1.length) v
                    :: mkRows migId StmtStatus.pending none none
                        (firstId + vals1.length + 1) vals2 },
        executed := st.executed ++ vals1 ++ [v],
        log := st.log ++ [stmtFailureLog e] } := by
  rw [mkRows_append migId StmtStatus.pending none none vals1 (v :: vals2) firstId]
  simp only [mkRows]
  refine Eq.trans (runPending_append_ok env migId vals1 firstId P
      (mkRow migId StmtStatus.pending none none (firstId + vals1.length) v
        :: mkRows migId StmtStatus.pending none none (firstId + vals1.length + 1)
            vals2)
      (mkRow migId StmtStatus.pending none none (firstId + vals1.length) v
        :: mkRows migId StmtStatus.pending none none (firstId + vals1.length + 1)
            vals2)
      st ?_ hP ?_ hex) ?_
  · rw [hdb,
      mkRows_append migId StmtStatus.pending none none vals1 (v :: vals2) firstId]
    simp [mkRows, List.append_assoc]
  · intro q hq
    rcases List.mem_cons.mp hq with rfl | hq
    · simp [mkRow]
    · have := mkRows_mem_id migId StmtStatus.pending none none vals2
        (firstId + vals1.length + 1) q hq
      omega
  · rw [runPending_fail_step_mk env migId (firstId + vals1.length) v
        (mkRows migId StmtStatus.pending none none (firstId + vals1.length + 1)
          vals2)
        { st with
          db := { st.db with
                  statements := P
                    ++ mkRows migId StmtStatus.success none none firstId vals1
                    ++ mkRow migId StmtStatus.pending none none
                        (firstId + vals1.length) v
                      :: mkRows migId StmtStatus.pending none none
                          (firstId + vals1.length + 1) vals2 },
          executed := st.executed ++ vals1 }
        e h8 h9]
    have hPmk : ∀ p ∈ P ++ mkRows migId StmtStatus.success none none firstId vals1,
        p.id ≠ (mkRow migId StmtStatus.failure (some e.number) (some e)
          (firstId + vals1.length) v).id := by
      intro p hp
      rcases List.mem_append.mp hp with hp | hp
      · have := hP p hp
        simp only [mkRow]
        omega
      · have := mkRows_mem_id migId StmtStatus.success none none vals1 firstId p hp
        simp only [mkRow]
        omega
    have hQmk : ∀ q ∈ mkRows migId StmtStatus.pending none none
        (firstId + vals1.length + 1) vals2,
        q.id ≠ (mkRow migId StmtStatus.failure (some e.number) (some e)
          (firstId + vals1.length) v).id := by
      intro q hq
      have := mkRows_mem_id migId StmtStatus.pending none none vals2
        (firstId + vals1.length + 1) q hq
      simp only [mkRow]
      omega
    have hmap := map_replace_id
      (mkRow migId StmtStatus.pending none none (firstId + vals1.length) v)
      (mkRow migId StmtStatus.failure (some e.number) (some e)
        (firstId + vals1.length) v)
      (P ++ mkRows migId StmtStatus.success none none firstId vals1)
      (mkRows migId StmtStatus.pending none none (firstId + vals1.length + 1)
        vals2)
      rfl hPmk hQmk
    rw [saveStatement,
      show ({ st.db with
              statements := P
                ++ mkRows migId StmtStatus.success none none firstId vals1
                ++ mkRow migId StmtStatus.pending none none
                    (firstId + vals1.length) v
                  :: mkRows migId StmtStatus.pending none none
                      (firstId + vals1.length + 1) vals2 } : DB).statements
        = (P ++ mkRows migId StmtStatus.success none none firstId vals1)
            ++ mkRow migId StmtStatus.pending none none (firstId + vals1.length) v
              :: mkRows migId StmtStatus.pending none none
                  (firstId + vals1.length + 1) vals2 from rfl,
      hmap]

/-- C1 (amended): if the creation of an individual pending Statement row
fails mid-batch, the remaining creations are aborted — no Statement row
beyond the already-created prefix is ever inserted — but execution IS
started on the already-created rows of the batch: the series completion
handler passes them to the execution loop, which (their executions
succeeding) runs exactly those rows and saves them as success. -/
theorem abort_still_executes_created (env : Env) (key : Option String)
    (S : List (Option String)) (s : Option String) (S2 : List (Option String))
    (st : RunState)
    (h1 : env.lookupFails = false)
    (h2 : migrationFind st.db (normalize key) = none)
    (h3 : env.migrationCreateFails = false)
    (h4 : (normalize key == none) = false)
    (h5 : createsOk env 0 S = true)
    (h6 : env.stmtCreateFails S.length = true ∨ normalize s = none)
    (h7 : execsOk env st.db.nextStatementId S.length = true)
    (hWF : ∀ p ∈ st.db.statements, p.id < st.db.nextStatementId) :
    runOnce env key (SqlArg.array (S ++ s :: S2)) st =
      { st with
        db := { st.db with
                migrations := st.db.migrations
                  ++ [migRow st.db.nextMigrationId (normalize key)],
                statements := st.db.statements
                  ++ mkRows st.db.nextMigrationId StmtStatus.success none none
                      st.db.nextStatementId (S.map normalize),
                nextMigrationId := st.db.nextMigrationId + 1,
                nextStatementId := st.db.nextStatementId + S.length },
        executed := st.executed ++ S.map normalize } := by
  rw [runOnce_fresh env key (SqlArg.array (S ++ s :: S2)) st h1 h2 h3 h4]
  rw [show coerceStatements (SqlArg.array (S ++ s :: S2)) = S ++ s :: S2 from by
    simp [coerceStatements, sliceCopy_id]]
  rw [createPending_abort env (migRow st.db.nextMigrationId (normalize key)) S s
      S2 (dbWithMigration st.db (normalize key)) h5 h6]
  simp only [migRow_id, dbWithMigration_statements, dbWithMigration_nextStatementId]
  rw [show mkRows st.db.nextMigrationId StmtStatus.pending none none
        st.db.nextStatementId (S.map normalize)
      = mkRows st.db.nextMigrationId StmtStatus.pending none none
          st.db.nextStatementId (S.map normalize) ++ [] from
    (List.append_nil _).symm]
  refine Eq.trans (runPending_append_ok env st.db.nextMigrationId (S.map normalize)
      st.db.nextStatementId st.db.statements [] [] _ ?_ hWF ?_ ?_) ?_
  · simp [List.append_assoc]
  · intro q hq
    exact absurd hq (List.not_mem_nil q)
  · simpa using h7
  · simp only [runPendingStatements]
    cases st with
    | mk db log executed =>
      cases db with
      | mk ms ss ni nsi =>
        simp [dbWithMigration, migRow, List.append_assoc]

/-- C1 witness: a concrete mid-batch creation failure — only the first row
is inserted, yet it is executed and ends as success. -/
theorem abort_still_executes_created_witness :
    runOnce { nominalEnv with stmtCreateFails := fun i => i == 1 } (some "k")
        (SqlArg.array [some "a", some "b", some "c"]) freshState
      = { freshState with
          db := { freshState.db with
                  migrations := [migRow 0 (some "k")],
                  statements := mkRows 0 StmtStatus.success none none 0 [some "a"],
                  nextMigrationId := 1,
                  nextStatementId := 1 },
          executed := [some "a"] } := by
  have h := abort_still_executes_created
      { nominalEnv with stmtCreateFails := fun i => i == 1 } (some "k")
      [some "a"] (some "b") [some "c"] freshState rfl rfl rfl rfl rfl
      (Or.inl rfl) rfl
      (by intro p hp; simp [freshState, emptyDB] at hp)
  rw [show (SqlArg.array [some "a", some "b", some "c"])
      = SqlArg.array ([some "a"] ++ some "b" :: [some "c"]) from rfl, h]
  rfl

/-- C3: Statement rows are created strictly in input order (consecutive ids,
sql texts in input order) and executed strictly in creation order; when the
statement after the prefix S fails, the prefix rows end as success, the
failing row is persisted as failure, and every later statement is never
executed and keeps status pending. -/
theorem statement_ordering_and_halt (env : Env) (key : Option String)
    (S : List (Option String)) (s : Option String) (S2 : List (Option String))
    (st : RunState) (e : DbError)
    (h1 : env.lookupFails = false)
    (h2 : migrationFind st.db (normalize key) = none)
    (h3 : env.migrationCreateFails = false)
    (h4 : (normalize key == none) = false)
    (h5 : createsOk env 0 (S ++ s :: S2) = true)
    (h7 : execsOk env st.db.nextStatementId S.length = true)
    (h8 : env.execError (st.db.nextStatementId + S.length) = some e)
    (h9 : env.saveFails (st.db.nextStatementId + S.length) = false)
    (hWF : ∀ p ∈ st.db.statements, p.id < st.db.nextStatementId) :
    runOnce env key (SqlArg.array (S ++ s :: S2)) st =
      { st with
        db := { st.db with
                migrations := st.db.migrations
                  ++ [migRow st.db.nextMigrationId (normalize key)],
                statements := st.db.statements
                  ++ mkRows st.db.nextMigrationId StmtStatus.success none none
                      st.db.nextStatementId (S.map normalize)
                  ++ mkRow st.db.nextMigrationId StmtStatus.failure
                      (some e.number) (some e)
                      (st.db.nextStatementId + S.length) (normalize s)
                    :: mkRows st.db.nextMigrationId StmtStatus.pending none none
                        (st.db.nextStatementId + S.length + 1)
                        (S2.map normalize),
                nextMigrationId := st.db.nextMigrationId + 1,
                nextStatementId := st.db.nextStatementId + (S ++ s :: S2).length },
        executed := st.executed ++ S.map normalize ++ [normalize s],
        log := st.log ++ [stmtFailureLog e] } := by
  rw [runOnce_fresh env key (SqlArg.array (S ++ s :: S2)) st h1 h2 h3 h4]
  rw [show coerceStatements (SqlArg.array (S ++ s :: S2)) = S ++ s :: S2 from by
    simp [coerceStatements, sliceCopy_id]]
  rw [createPending_all_ok env (migRow st.db.nextMigrationId (normalize key))
      (S ++ s :: S2) (dbWithMigration st.db (normalize key)) h5]
  simp only [migRow_id, dbWithMigration_statements, dbWithMigration_nextStatementId]
  rw [show (S ++ s :: S2).map normalize
      = S.map normalize ++ normalize s :: S2.map normalize from by simp]
  refine Eq.trans (runPending_fail_after env st.db.nextMigrationId
      (S.map normalize) (normalize s) (S2.map normalize) st.db.nextStatementId
      st.db.statements _ e ?_ hWF ?_ ?_ ?_) ?_
  · simp
  · simpa using h7
  · simpa using h8
  · simpa using h9
  · cases st with
    | mk db log executed =>
      cases db with
      | mk ms ss ni nsi =>
        simp [dbWithMigration, migRow, List.append_assoc]

/-- C3 witness: a concrete three-statement batch whose second execution
fails — the first row is success, the second failure with the driver error,
the third stays pending and unexecuted. -/
theorem statement_ordering_and_halt_witness :
    runOnce { nominalEnv with
              execError := fun i =>
                if i == 1 then some { number := 1060, message := "dup" }
                else none }
        (some "k") (SqlArg.array [some "a", some "b", some "c"]) freshState
      = { freshState with
          db := { freshState.db with
                  migrations := [migRow 0 (some "k")],
                  statements := mkRows 0 StmtStatus.success none none 0 [some "a"]
                    ++ mkRow 0 StmtStatus.failure (some 1060)
                        (some { number := 1060, message := "dup" }) 1 (some "b")
                      :: mkRows 0 StmtStatus.pending none none 2 [some "c"],
                  nextMigrationId := 1,
                  nextStatementId := 3 },
          executed := [some "a", some "b"],
          log := [stmtFailureLog { number := 1060, message := "dup" }] } := by
  have h := statement_ordering_and_halt
      { nominalEnv with
        execError := fun i =>
          if i == 1 then some { number := 1060, message := "dup" }
          else none }
      (some "k") [some "a"] (some "b") [some "c"] freshState
      { number := 1060, message := "dup" } rfl rfl rfl rfl rfl rfl rfl rfl
      (by intro p hp; simp [freshState, emptyDB] at hp)
  rw [show (SqlArg.array [some "a", some "b", some "c"])
      = SqlArg.array ([some "a"] ++ some "b" :: [some "c"]) from rfl, h]
  rfl

end SequelizeMigrations
